import Mathlib

/-!
Verification of the dynamic batching scheduler of the `emb-infer-bge-m3`
service (`src/services/batch_service.py`, `src/services/model_service.py`,
`src/main.py`).

Modelling conventions:
* Python `float` values (timestamps in seconds, the `* 1.3` token
  estimate) are idealized as rationals `ℚ`.
* Numeric vector components produced by the encoder are likewise `ℚ`;
  their values are opaque to the scheduler logic.
* A Python `asyncio.Future` outcome is modelled as an `Except Err` value:
  `set_result` is `Except.ok`, `set_exception` is `Except.error`.
* The body of `async with self.batch_lock:` executes with no suspension
  point, so each critical section is modelled as one pure state
  transition on `ProcState`.
-/

namespace EmbInfer

/-- Errors raised by the service code: the two HTTP 503 rejections of
`BatchProcessor.add_request`, the `ValueError`s of
`process_bge_embeddings`, and the `AttributeError` that calling
`.encode` on a `None` encoder would raise. -/
inductive Err where
  | serviceUnavailable
  | capacity
  | valueError (msg : String)
  | noneEncoder
deriving DecidableEq, Repr

/-- The `input` field of `EmbeddingRequest` (`src/models/schemas.py`):
a single string, a list of strings, or (handled by
`add_request`'s normalization) a list of integers. -/
inductive RawInput where
  | str (s : String)
  | strList (l : List String)
  | intList (l : List Int)
deriving DecidableEq, Repr

/-- `EmbeddingRequest` as received from the transport layer. -/
structure RawRequest where
  model : String
  input : RawInput
  encoding_format : String
  return_dense : Bool
  return_sparse : Bool
  return_colbert : Bool
  user : Option String
deriving DecidableEq, Repr

/-- An `EmbeddingRequest` whose `input` has been normalized by
`add_request` to a list of strings. -/
structure NormRequest where
  model : String
  input : List String
  encoding_format : String
  return_dense : Bool
  return_sparse : Bool
  return_colbert : Bool
  user : Option String
deriving DecidableEq, Repr, Inhabited

/-- `BGEEmbeddingData` (`src/models/schemas.py`). -/
structure BGEEmbeddingData where
  index : Nat
  dense_embedding : Option (List ℚ)
  sparse_embedding : Option (List (Nat × ℚ))
  colbert_embedding : Option (List (List ℚ))
deriving DecidableEq, Repr, Inhabited

/-- `BGEEmbeddingResponse` (`src/models/schemas.py`); the `usage` dict is
built with exactly the keys `prompt_tokens` and `total_tokens` at both
construction sites, so it is modelled as two fields. -/
structure BGEEmbeddingResponse where
  data : List BGEEmbeddingData
  model : String
  prompt_tokens : Nat
  total_tokens : Nat
  embedding_types : List String
deriving DecidableEq, Repr

/-- The raw result of `encoder.encode(...)`: per-text dense, sparse
(`lexical_weights`) and colbert vectors, any entry possibly `None`. -/
structure EncodeRaw where
  dense_vecs : List (Option (List ℚ))
  lexical_weights : List (Option (List (Nat × ℚ)))
  colbert_vecs : List (Option (List (List ℚ)))

/-- The encoder collaborator, opaque to the scheduler: a function from
the concatenated text list to raw per-text vectors. -/
abbrev EncoderFn := List String → EncodeRaw

/-- Python `len(text.split())`: number of maximal nonempty
whitespace-separated words. -/
def wordCount (s : String) : Nat :=
  ((s.split Char.isWhitespace).filter (fun w => ¬ w.isEmpty)).length

/-- `int(sum(len(text.split()) * 1.3 for text in texts))`, the
approximate token count used for `usage`; float arithmetic idealized
as `ℚ` and `int` truncation (of a nonnegative value) as the floor. -/
def approxTokens (texts : List String) : Nat :=
  (⌊(texts.map (fun t => (wordCount t : ℚ) * (13 / 10))).sum⌋).toNat

/-- The `requested_types` list built at lines 75-81 and 120-126 of
`model_service.py` and lines 166-172 of `batch_service.py`: the names
of the vector kinds whose flag is set, in the fixed order
dense, sparse, colbert. -/
def requestedTypes (d s c : Bool) : List String :=
  (if d then ["dense"] else []) ++
    (if s then ["sparse"] else []) ++
      (if c then ["colbert"] else [])

/-- Input handling at the top of `process_bge_embeddings`: a scalar
string is wrapped, an empty list short-circuits, a nonempty list is
used as is (a nonempty list of integers would flow on as non-string
texts; no caller in the repository produces that shape). -/
inductive ProcInput where
  | empty
  | texts (l : List String)
  | nonStringTexts
deriving DecidableEq, Repr

/-- The input dispatch of `process_bge_embeddings` (lines 70-91 of
`model_service.py`). -/
def procNormalize : RawInput → ProcInput
  | .str s => .texts [s]
  | .strList [] => .empty
  | .strList l => .texts l
  | .intList [] => .empty
  | .intList _ => .nonStringTexts

/-- One entry of the per-text loop at lines 130-157 of
`model_service.py`: each vector kind is kept only when its flag is set,
the index is in range and the encoder produced a value there. -/
def buildDataItem (d s c : Bool) (raw : EncodeRaw) (i : Nat) : BGEEmbeddingData :=
  { index := i
    dense_embedding := if d then raw.dense_vecs.getD i none else none
    sparse_embedding := if s then raw.lexical_weights.getD i none else none
    colbert_embedding := if c then raw.colbert_vecs.getD i none else none }

/-- `process_bge_embeddings(request, encoder)` (`model_service.py`
lines 63-178).  The encoder argument is `Option` because `add_request`
passes `None` on the empty-input fast path; invoking a `None` encoder
on a nonempty input would raise (modelled as `Err.noneEncoder`). -/
def process_bge_embeddings (req : RawRequest) (encoder : Option EncoderFn) :
    Except Err BGEEmbeddingResponse :=
  match procNormalize req.input with
  | .empty =>
      .ok { data := []
            model := req.model
            prompt_tokens := 0
            total_tokens := 0
            embedding_types :=
              requestedTypes req.return_dense req.return_sparse req.return_colbert }
  | .nonStringTexts => .error (.valueError "non-string input")
  | .texts inputs =>
      if ¬ (req.return_dense || req.return_sparse || req.return_colbert) then
        .error (.valueError "At least one vector type must be requested")
      else
        match encoder with
        | none => .error .noneEncoder
        | some enc =>
            let raw := enc inputs
            .ok { data := (List.range inputs.length).map
                    (buildDataItem req.return_dense req.return_sparse
                      req.return_colbert raw)
                  model := req.model
                  prompt_tokens := approxTokens inputs
                  total_tokens := approxTokens inputs
                  embedding_types :=
                    requestedTypes req.return_dense req.return_sparse
                      req.return_colbert }

/-- `BatchItem` (`batch_service.py` lines 13-19): the queued request
(already normalized), its arrival timestamp (seconds, as `ℚ`), and its
own text count.  The `future` field is not carried: future outcomes are
the return values of the model. -/
structure BatchItem where
  request : NormRequest
  timestamp : ℚ
  original_input_length : Nat
deriving DecidableEq, Repr, Inhabited

/-- The mutable state of `BatchProcessor` that the claims concern:
the FIFO `pending_requests` queue and the `is_shutting_down` flag. -/
structure ProcState where
  pending : List BatchItem
  isShuttingDown : Bool
deriving DecidableEq, Repr

/-- The batching configuration (`src/core/config.py`). -/
structure Config where
  MAX_QUEUE_SIZE : Nat
  BATCH_SIZE : Nat
  BATCH_TIMEOUT_MS : Nat

/-- Input normalization at lines 49-61 of `batch_service.py`: a scalar
string becomes a one-element list, an empty list returns `none`
(the immediate-processing fast path), a list of integers is joined into
one synthetic string, any other list is used as is. -/
def normalizeInput : RawInput → Option (List String)
  | .str s => some [s]
  | .strList [] => none
  | .strList l => some l
  | .intList [] => none
  | .intList l => some [String.intercalate " " (l.map toString)]

instance instDecEqExcept {ε α : Type} [DecidableEq ε] [DecidableEq α] :
    DecidableEq (Except ε α) := fun a b =>
  match a, b with
  | .ok x, .ok y => decidable_of_iff (x = y) (by simp)
  | .ok _, .error _ => .isFalse (by simp)
  | .error _, .ok _ => .isFalse (by simp)
  | .error x, .error y => decidable_of_iff (x = y) (by simp)

/-- Outcome of one `add_request` call, as seen by the caller. -/
inductive AddOutcome where
  | rejected (e : Err)
  | immediate (r : Except Err BGEEmbeddingResponse)
  | enqueued (dispatched : Option (List BatchItem))
deriving DecidableEq, Repr

/-- The `BatchItem` built at lines 63-78 of `batch_service.py`: the
request re-created with the normalized input, the arrival timestamp,
and the normalized input's length. -/
def mkBatchItem (req : RawRequest) (inputs : List String) (now : ℚ) : BatchItem :=
  { request :=
      { model := req.model
        input := inputs
        encoding_format := req.encoding_format
        return_dense := req.return_dense
        return_sparse := req.return_sparse
        return_colbert := req.return_colbert
        user := req.user }
    timestamp := now
    original_input_length := inputs.length }

/-- `BatchProcessor.add_request` (`batch_service.py` lines 39-106) as a
pure transition: the shutdown check, the input normalization with its
empty-input fast path (`process_func(request, None)`), then the
critical section of lines 81-103 — capacity check, append, dispatch
decision, extraction of the first `BATCH_SIZE` entries.  `now` stands
for the `time.time()` calls of the section.  Returns the caller-visible
outcome and the state after the critical section. -/
def add_request (cfg : Config) (now : ℚ) (st : ProcState) (req : RawRequest) :
    AddOutcome × ProcState :=
  if st.isShuttingDown then
    (.rejected .serviceUnavailable, st)
  else
    match normalizeInput req.input with
    | none => (.immediate (process_bge_embeddings req none), st)
    | some inputs =>
        let item : BatchItem := mkBatchItem req inputs now
        if cfg.MAX_QUEUE_SIZE ≤ st.pending.length then
          (.rejected .capacity, st)
        else
          let q := st.pending ++ [item]
          let should_process : Bool :=
            decide (cfg.BATCH_SIZE ≤ q.length) ||
              (!q.isEmpty &&
                decide ((now - q.headI.timestamp) * 1000 ≥ (cfg.BATCH_TIMEOUT_MS : ℚ)))
          if should_process then
            (.enqueued (some (q.take cfg.BATCH_SIZE)),
              { st with pending := q.drop cfg.BATCH_SIZE })
          else
            (.enqueued none, { st with pending := q })

/-- The concatenation loop of `_process_batch` (lines 122-131):
extend `all_texts` with each member's texts while recording the
`(start_idx, current_index)` boundary of each member. -/
def concatWithBoundaries (start : Nat) : List BatchItem → List String × List (Nat × Nat)
  | [] => ([], [])
  | it :: rest =>
      let tail := concatWithBoundaries (start + it.request.input.length) rest
      (it.request.input ++ tail.1,
        (start, start + it.request.input.length) :: tail.2)

/-- The combined `all_texts` list of a batch. -/
def allTexts (batch : List BatchItem) : List String :=
  (concatWithBoundaries 0 batch).1

/-- The `request_boundaries` list of a batch. -/
def requestBoundaries (batch : List BatchItem) : List (Nat × Nat) :=
  (concatWithBoundaries 0 batch).2

/-- The `combined_request` of `_process_batch` (lines 135-149): the
concatenated texts under the *first* member's model, format and
vector-kind flags. -/
def combinedRequest (first : NormRequest) (texts : List String) : RawRequest :=
  { model := first.model
    input := .strList texts
    encoding_format := first.encoding_format
    return_dense := first.return_dense
    return_sparse := first.return_sparse
    return_colbert := first.return_colbert
    user := first.user }

/-- Re-indexing of a member's slice (lines 160-162 of
`batch_service.py`): `data_item.index = j` for each position `j`. -/
def reindexData (l : List BGEEmbeddingData) : List BGEEmbeddingData :=
  l.mapIdx (fun j d => { d with index := j })

/-- Assembly of one member's individual result (lines 156-182):
slice `batch_result.data[start:end]`, re-index from 0, recompute usage
from the member's own texts, and list the vector kinds the member
itself requested in `embedding_types`.  Note that the embedding
*content* inside the slice is taken from the combined result as is. -/
def assembleMember (item : BatchItem) (bounds : Nat × Nat)
    (br : BGEEmbeddingResponse) : BGEEmbeddingResponse :=
  { data := reindexData ((br.data.drop bounds.1).take (bounds.2 - bounds.1))
    model := br.model
    prompt_tokens := approxTokens item.request.input
    total_tokens := approxTokens item.request.input
    embedding_types :=
      requestedTypes item.request.return_dense item.request.return_sparse
        item.request.return_colbert }

/-- `BatchProcessor._process_batch` (lines 108-214) with the concrete
slicing of this repository: one shared `process_bge_embeddings` call on
the combined request; on failure every member's future gets the same
exception (lines 203-211), on success the members' futures are resolved
one by one with their assembled slices.  The result list holds member
`i`'s future outcome at position `i`. -/
def processBatchRun (batch : List BatchItem) (encoder : Option EncoderFn) :
    List (Except Err BGEEmbeddingResponse) :=
  match batch with
  | [] => []
  | first :: rest =>
      match process_bge_embeddings
          (combinedRequest first.request (allTexts (first :: rest))) encoder with
      | .error e => (first :: rest).map (fun _ => .error e)
      | .ok br =>
          ((first :: rest).zip (requestBoundaries (first :: rest))).map
            (fun p => .ok (assembleMember p.1 p.2 br))

/-- The control-flow skeleton of `_process_batch`'s result fan-out with
the per-member assembly step abstracted as a fallible function (the
body of the `try` at lines 157-185): if the shared encoder call fails,
every member receives that error; if it succeeds, member `i`'s outcome
is exactly its own assembly outcome, caught per member by the inner
`except` (lines 186-188). -/
def processBatchGeneric {R : Type} (encResult : Except Err R)
    (assemble : Nat → R → Except Err BGEEmbeddingResponse) (n : Nat) :
    List (Except Err BGEEmbeddingResponse) :=
  match encResult with
  | .error e => (List.range n).map (fun _ => .error e)
  | .ok r => (List.range n).map (fun i => assemble i r)

/-- One tick of `start_timeout_processor` (lines 216-239) after its
sleep: under the lock, if the queue is non-empty and the oldest entry is
stale, extract the *entire* queue as one batch.  Returns the extracted
batch, if any, and the state after the critical section. -/
def timeout_tick (cfg : Config) (now : ℚ) (st : ProcState) :
    Option (List BatchItem) × ProcState :=
  if !st.pending.isEmpty &&
      decide ((now - st.pending.headI.timestamp) * 1000 ≥ (cfg.BATCH_TIMEOUT_MS : ℚ)) then
    (some st.pending, { st with pending := [] })
  else
    (none, st)

/-- The intake-closing and queue-draining part of
`BatchProcessor.graceful_shutdown` (lines 241-265): set
`is_shutting_down`, then flush whatever remains in the queue as one
final batch. -/
def graceful_shutdown_intake (st : ProcState) : ProcState × Option (List BatchItem) :=
  let st1 : ProcState := { st with isShuttingDown := true }
  if st1.pending.isEmpty then
    (st1, none)
  else
    ({ st1 with pending := [] }, some st1.pending)

/-- The application state touched by `main.py`'s lifespan: the batch
processor, the sweeper task handle and the loaded encoder. -/
structure AppState where
  proc : ProcState
  sweeperTaskRunning : Bool
  encoderLoaded : Bool
deriving DecidableEq, Repr

/-- The teardown section of `lifespan` (`main.py` lines 40-53): cancel
the sweeper task, release the encoder and clear GPU memory.  It never
calls `batch_processor.graceful_shutdown`, so the processor state is
untouched. -/
def lifespan_shutdown (s : AppState) : AppState :=
  { s with sweeperTaskRunning := false, encoderLoaded := false }

/-! Concrete fixtures used to instantiate the theorems. -/

/-- A deterministic stand-in for the opaque encoder: every text gets a
dense vector, a sparse weight map and a colbert matrix. -/
def encStub : EncoderFn := fun texts =>
  { dense_vecs := texts.map (fun _ => some [(1 : ℚ)])
    lexical_weights := texts.map (fun _ => some [((0 : Nat), (1 : ℚ))])
    colbert_vecs := texts.map (fun _ => some [[(1 : ℚ)]]) }

/-- A queued member that requested all three vector kinds. -/
def memberA : BatchItem :=
  { request :=
      { model := "bge-m3", input := ["a"], encoding_format := "float"
        return_dense := true, return_sparse := true, return_colbert := true
        user := none }
    timestamp := 0
    original_input_length := 1 }

/-- A queued member that requested only sparse vectors. -/
def memberB : BatchItem :=
  { request :=
      { model := "bge-m3", input := ["b"], encoding_format := "float"
        return_dense := false, return_sparse := true, return_colbert := false
        user := none }
    timestamp := 0
    original_input_length := 1 }

/-- The configuration of the spec's dispatch scenario:
`BATCH_SIZE = 2` with room in the queue and a 100 ms timeout. -/
def cfgABC : Config :=
  { MAX_QUEUE_SIZE := 50, BATCH_SIZE := 2, BATCH_TIMEOUT_MS := 100 }

/-- A transport request carrying one scalar text. -/
def reqOf (s : String) : RawRequest :=
  { model := "bge-m3", input := .str s, encoding_format := "float"
    return_dense := true, return_sparse := true, return_colbert := true
    user := none }

/-- The empty, running processor state. -/
def st0 : ProcState := { pending := [], isShuttingDown := false }

/-- An empty response used by the failure-isolation fixtures. -/
def emptyResp : BGEEmbeddingResponse :=
  { data := [], model := "bge-m3", prompt_tokens := 0, total_tokens := 0
    embedding_types := ["dense", "sparse", "colbert"] }

/-- A per-member assembly stand-in whose member 0 raises and whose
other members succeed. -/
def asmStub : Nat → Unit → Except Err BGEEmbeddingResponse := fun i _ =>
  if i = 0 then .error (.valueError "slice failure") else .ok emptyResp

/-! Helper lemmas about the concatenation loop. -/

theorem concatWithBoundaries_snd_length (b : List BatchItem) (s : Nat) :
    ((concatWithBoundaries s b).2).length = b.length := by
  induction b generalizing s with
  | nil => rfl
  | cons it rest ih => simp [concatWithBoundaries, ih]

theorem concatWithBoundaries_fst_length (b : List BatchItem) (s : Nat) :
    ((concatWithBoundaries s b).1).length =
      (b.map (fun it => it.request.input.length)).sum := by
  induction b generalizing s with
  | nil => rfl
  | cons it rest ih => simp [concatWithBoundaries, ih]

theorem concatWithBoundaries_snd_get? (b : List BatchItem) (s i : Nat)
    (h : i < b.length) :
    ((concatWithBoundaries s b).2)[i]? =
      some (s + ((b.map (fun it => it.request.input.length)).take i).sum,
        s + ((b.map (fun it => it.request.input.length)).take (i + 1)).sum) := by
  induction b generalizing s i with
  | nil => exact absurd h (by simp)
  | cons it rest ih =>
      cases i with
      | zero => simp [concatWithBoundaries]
      | succ j =>
          have hj : j < rest.length := by simpa using h
          simp [concatWithBoundaries, ih _ _ hj, Nat.add_assoc]

theorem allTexts_length (b : List BatchItem) :
    (allTexts b).length = (b.map (fun it => it.request.input.length)).sum :=
  concatWithBoundaries_fst_length b 0

theorem requestBoundaries_length (b : List BatchItem) :
    (requestBoundaries b).length = b.length :=
  concatWithBoundaries_snd_length b 0

theorem requestBoundaries_get? (b : List BatchItem) (i : Nat) (h : i < b.length) :
    (requestBoundaries b)[i]? =
      some (((b.map (fun it => it.request.input.length)).take i).sum,
        ((b.map (fun it => it.request.input.length)).take (i + 1)).sum) := by
  simpa using concatWithBoundaries_snd_get? b 0 i h

/-- Characterization of `add_request` on an accepted enqueue (running,
non-empty input, queue under capacity): the entry is appended and the
dispatch decision is the disjunction of the size and the age
condition, evaluated on the post-append queue. -/
theorem add_request_accepted (cfg : Config) (now : ℚ) (st : ProcState)
    (req : RawRequest) (inputs : List String)
    (hns : st.isShuttingDown = false)
    (hn : normalizeInput req.input = some inputs)
    (hcap : st.pending.length < cfg.MAX_QUEUE_SIZE) :
    add_request cfg now st req =
      (if cfg.BATCH_SIZE ≤ (st.pending ++ [mkBatchItem req inputs now]).length ∨
          (now - (st.pending ++ [mkBatchItem req inputs now]).headI.timestamp) * 1000 ≥
            (cfg.BATCH_TIMEOUT_MS : ℚ) then
        (.enqueued (some ((st.pending ++ [mkBatchItem req inputs now]).take cfg.BATCH_SIZE)),
          { st with pending := (st.pending ++ [mkBatchItem req inputs now]).drop cfg.BATCH_SIZE })
      else
        (.enqueued none, { st with pending := st.pending ++ [mkBatchItem req inputs now] })) := by
  have hne : (st.pending ++ [mkBatchItem req inputs now]).isEmpty = false := by
    simp
  simp only [add_request, hns, Bool.false_eq_true, if_false, hn,
    if_neg (Nat.not_le.mpr hcap), hne, Bool.not_false, Bool.true_and,
    Bool.or_eq_true, decide_eq_true_eq, ge_iff_le]

/-- A configuration with a full queue capacity of one. -/
def cfg1 : Config :=
  { MAX_QUEUE_SIZE := 1, BATCH_SIZE := 8, BATCH_TIMEOUT_MS := 100 }

/-- A transport request whose input is an empty list of strings. -/
def reqEmpty : RawRequest :=
  { model := "bge-m3", input := .strList [], encoding_format := "float"
    return_dense := true, return_sparse := false, return_colbert := true
    user := none }

/-- C7: once `is_shutting_down` is true, every subsequent `add_request`
call fails immediately with the 503 service-unavailable error, before
any input normalization or queue mutation: the state is returned
untouched, so no entry is ever accepted after the transition. -/
theorem C7_shutdown_rejects_intake (cfg : Config) (now : ℚ) (st : ProcState)
    (req : RawRequest) (h : st.isShuttingDown = true) :
    add_request cfg now st req = (.rejected .serviceUnavailable, st) := by
  simp [add_request, h]

/-- Witness for C7: a concrete shutdown-flagged state rejects a request
and the queue is unchanged. -/
theorem C7_witness :
    add_request cfgABC 0 { pending := [], isShuttingDown := true } (reqOf "A") =
      (.rejected .serviceUnavailable, { pending := [], isShuttingDown := true }) :=
  C7_shutdown_rejects_intake cfgABC 0 { pending := [], isShuttingDown := true }
    (reqOf "A") rfl

/-- C4: an enqueue attempt (running service, non-empty input) arriving
while the queue already holds at least `MAX_QUEUE_SIZE` entries fails
with the 503 capacity error; nothing is appended, the state is returned
untouched, and no result is ever produced for the caller. -/
theorem C4_capacity_rejects_enqueue (cfg : Config) (now : ℚ) (st : ProcState)
    (req : RawRequest) (inputs : List String)
    (hns : st.isShuttingDown = false)
    (hn : normalizeInput req.input = some inputs)
    (hcap : cfg.MAX_QUEUE_SIZE ≤ st.pending.length) :
    add_request cfg now st req = (.rejected .capacity, st) := by
  simp [add_request, hns, hn, hcap]

/-- Witness for C4: capacity 1 with one queued entry rejects a second
request and leaves the queue holding exactly that one entry. -/
theorem C4_witness :
    add_request cfg1 0 { pending := [memberA], isShuttingDown := false } (reqOf "B") =
      (.rejected .capacity, { pending := [memberA], isShuttingDown := false }) :=
  C4_capacity_rejects_enqueue cfg1 0 { pending := [memberA], isShuttingDown := false }
    (reqOf "B") ["B"] rfl rfl (by norm_num [cfg1])

/-- C9: the lifespan teardown of `main.py` only cancels the sweeper
task and releases the encoder; it never calls `graceful_shutdown`, so
the batch-processor state — `is_shutting_down` and the pending queue —
is exactly what it was before teardown. -/
theorem C9_lifespan_leaves_processor_untouched (s : AppState) :
    (lifespan_shutdown s).proc = s.proc ∧
    (lifespan_shutdown s).proc.isShuttingDown = s.proc.isShuttingDown ∧
    (lifespan_shutdown s).proc.pending = s.proc.pending ∧
    (lifespan_shutdown s).sweeperTaskRunning = false ∧
    (lifespan_shutdown s).encoderLoaded = false :=
  ⟨rfl, rfl, rfl, rfl, rfl⟩

/-- C10: while the service is running, a request whose input is an
empty list bypasses the batching queue: `add_request` immediately
returns `process_func(request, None)` — the encoder is the `None`
placeholder and is never invoked — the state is unchanged, and the
response has empty data, zero token counts, and `embedding_types`
reflecting the request's flags. -/
theorem C10_empty_input_fast_path (cfg : Config) (now : ℚ) (st : ProcState)
    (req : RawRequest) (hns : st.isShuttingDown = false)
    (hempty : req.input = .strList [] ∨ req.input = .intList []) :
    add_request cfg now st req = (.immediate (process_bge_embeddings req none), st) ∧
    process_bge_embeddings req none =
      .ok { data := [], model := req.model, prompt_tokens := 0, total_tokens := 0,
            embedding_types :=
              requestedTypes req.return_dense req.return_sparse req.return_colbert } := by
  rcases hempty with h | h <;>
    simp [add_request, hns, normalizeInput, h, process_bge_embeddings, procNormalize]

/-- Witness for C10: a concrete empty-list request on a loaded queue is
answered immediately with the empty response and the queue keeps its
entry. -/
theorem C10_witness :
    add_request cfgABC 0 { pending := [memberA], isShuttingDown := false } reqEmpty =
      (.immediate (process_bge_embeddings reqEmpty none),
        { pending := [memberA], isShuttingDown := false }) ∧
    process_bge_embeddings reqEmpty none =
      .ok { data := [], model := "bge-m3", prompt_tokens := 0, total_tokens := 0,
            embedding_types := requestedTypes true false true } :=
  C10_empty_input_fast_path cfgABC 0 { pending := [memberA], isShuttingDown := false }
    reqEmpty rfl (Or.inl rfl)

/-- C3: on a successful enqueue, the same critical section dispatches a
batch exactly when the post-append queue has reached `BATCH_SIZE` or
its oldest entry is at least `BATCH_TIMEOUT_MS` old; a dispatch
extracts precisely the first `min(BATCH_SIZE, len(queue))` entries in
FIFO order and leaves the rest queued.  The last conjuncts check the
spec scenario: with `BATCH_SIZE = 2` and entries A, B, C arriving in
order with no timeout, the first dispatch extracts `[A, B]` and leaves
`[C]`. -/
theorem C3_dispatch_decision (cfg : Config) (now : ℚ) (st : ProcState)
    (req : RawRequest) (inputs : List String)
    (hns : st.isShuttingDown = false)
    (hn : normalizeInput req.input = some inputs)
    (hcap : st.pending.length < cfg.MAX_QUEUE_SIZE) :
    ((∃ bt, (add_request cfg now st req).1 = .enqueued (some bt)) ↔
      (cfg.BATCH_SIZE ≤ (st.pending ++ [mkBatchItem req inputs now]).length ∨
        (now - (st.pending ++ [mkBatchItem req inputs now]).headI.timestamp) * 1000 ≥
          (cfg.BATCH_TIMEOUT_MS : ℚ))) ∧
    (∀ bt, (add_request cfg now st req).1 = .enqueued (some bt) →
      bt = (st.pending ++ [mkBatchItem req inputs now]).take cfg.BATCH_SIZE ∧
      bt.length = min cfg.BATCH_SIZE (st.pending ++ [mkBatchItem req inputs now]).length ∧
      (add_request cfg now st req).2.pending =
        (st.pending ++ [mkBatchItem req inputs now]).drop cfg.BATCH_SIZE) ∧
    (add_request cfgABC 0 st0 (reqOf "A")).1 = .enqueued none ∧
    (add_request cfgABC 0 (add_request cfgABC 0 st0 (reqOf "A")).2 (reqOf "B")).1 =
      .enqueued (some [mkBatchItem (reqOf "A") ["A"] 0, mkBatchItem (reqOf "B") ["B"] 0]) ∧
    (add_request cfgABC 0 (add_request cfgABC 0 st0 (reqOf "A")).2 (reqOf "B")).2.pending
      = [] ∧
    (add_request cfgABC 0
      (add_request cfgABC 0 (add_request cfgABC 0 st0 (reqOf "A")).2 (reqOf "B")).2
      (reqOf "C")).1 = .enqueued none ∧
    (add_request cfgABC 0
      (add_request cfgABC 0 (add_request cfgABC 0 st0 (reqOf "A")).2 (reqOf "B")).2
      (reqOf "C")).2.pending = [mkBatchItem (reqOf "C") ["C"] 0] := by
  rw [add_request_accepted cfg now st req inputs hns hn hcap]
  refine ⟨?_, ?_, ?_, ?_, ?_, ?_, ?_⟩
  · constructor
    · rintro ⟨bt, hbt⟩
      by_contra hcond
      rw [if_neg hcond] at hbt
      simp at hbt
    · intro hcond
      rw [if_pos hcond]
      exact ⟨_, rfl⟩
  · intro bt hbt
    by_cases hcond : cfg.BATCH_SIZE ≤ (st.pending ++ [mkBatchItem req inputs now]).length ∨
        (now - (st.pending ++ [mkBatchItem req inputs now]).headI.timestamp) * 1000 ≥
          (cfg.BATCH_TIMEOUT_MS : ℚ)
    · rw [if_pos hcond] at hbt
      simp only [AddOutcome.enqueued.injEq, Option.some.injEq] at hbt
      rw [if_pos hcond]
      refine ⟨hbt.symm, ?_, rfl⟩
      rw [← hbt, List.length_take]
    · rw [if_neg hcond] at hbt
      simp at hbt
  · norm_num [add_request, st0, reqOf, cfgABC, normalizeInput, mkBatchItem]
  · norm_num [add_request, st0, reqOf, cfgABC, normalizeInput, mkBatchItem]
  · norm_num [add_request, st0, reqOf, cfgABC, normalizeInput, mkBatchItem]
  · norm_num [add_request, st0, reqOf, cfgABC, normalizeInput, mkBatchItem]
  · norm_num [add_request, st0, reqOf, cfgABC, normalizeInput, mkBatchItem]

/-- Witness for C3: the theorem applied to the concrete "B arrives
second" step of the scenario, whose post-append queue reaches
`BATCH_SIZE = 2` and therefore dispatches `[A, B]`. -/
theorem C3_witness :
    ∃ bt, (add_request cfgABC 0
        { pending := [mkBatchItem (reqOf "A") ["A"] 0], isShuttingDown := false }
        (reqOf "B")).1 = .enqueued (some bt) := by
  have h := C3_dispatch_decision cfgABC 0
    { pending := [mkBatchItem (reqOf "A") ["A"] 0], isShuttingDown := false }
    (reqOf "B") ["B"] rfl rfl (by norm_num [cfgABC])
  exact h.1.mpr (Or.inl (by norm_num [cfgABC]))

/-- C8: under single-threaded evaluation of the critical section, a
queue that reaches `BATCH_SIZE` on append is drained by a dispatch of
exactly `BATCH_SIZE` entries inside the same critical section, and the
pending queue is strictly below `BATCH_SIZE` at every release of the
section: any `add_request` step preserves `len(queue) < BATCH_SIZE`. -/
theorem C8_queue_never_reaches_batch_size (cfg : Config) (now : ℚ) (st : ProcState)
    (req : RawRequest) (hpos : 0 < cfg.BATCH_SIZE)
    (hinv : st.pending.length < cfg.BATCH_SIZE) :
    (add_request cfg now st req).2.pending.length < cfg.BATCH_SIZE ∧
    (∀ inputs, st.isShuttingDown = false → normalizeInput req.input = some inputs →
      st.pending.length < cfg.MAX_QUEUE_SIZE →
      cfg.BATCH_SIZE ≤ st.pending.length + 1 →
      ∃ bt, (add_request cfg now st req).1 = .enqueued (some bt) ∧
        bt.length = cfg.BATCH_SIZE ∧ (add_request cfg now st req).2.pending = []) := by
  constructor
  · by_cases h1 : st.isShuttingDown = true
    · simpa [add_request, h1] using hinv
    · have h1' : st.isShuttingDown = false := by simpa using h1
      cases hn : normalizeInput req.input with
      | none => simpa [add_request, h1', hn] using hinv
      | some inputs =>
          by_cases h2 : cfg.MAX_QUEUE_SIZE ≤ st.pending.length
          · simpa [add_request, h1', hn, h2] using hinv
          · rw [add_request_accepted cfg now st req inputs h1' hn (by omega)]
            split
            · simp only [List.length_drop, List.length_append, List.length_cons,
                List.length_nil]
              omega
            · next hcond =>
                have hlen : ¬ cfg.BATCH_SIZE ≤
                    (st.pending ++ [mkBatchItem req inputs now]).length := fun hle =>
                  hcond (Or.inl hle)
                simp only [List.length_append, List.length_cons, List.length_nil] at hlen
                simpa using Nat.lt_of_not_le hlen
  · intro inputs hns hn hcap hreach
    rw [add_request_accepted cfg now st req inputs hns hn hcap]
    have hfull : cfg.BATCH_SIZE ≤ (st.pending ++ [mkBatchItem req inputs now]).length := by
      simpa using hreach
    rw [if_pos (Or.inl hfull)]
    refine ⟨_, rfl, ?_, ?_⟩
    · rw [List.length_take]
      omega
    · apply List.eq_nil_of_length_eq_zero
      simp only [List.length_drop, List.length_append, List.length_cons, List.length_nil]
      omega

/-- Witness for C8: with `BATCH_SIZE = 2` and one entry already queued,
an accepted enqueue dispatches a batch of exactly two and releases the
section with an empty queue (strictly below `BATCH_SIZE`). -/
theorem C8_witness :
    (add_request cfgABC 0
        { pending := [mkBatchItem (reqOf "A") ["A"] 0], isShuttingDown := false }
        (reqOf "B")).2.pending.length < cfgABC.BATCH_SIZE ∧
    ∃ bt, (add_request cfgABC 0
        { pending := [mkBatchItem (reqOf "A") ["A"] 0], isShuttingDown := false }
        (reqOf "B")).1 = .enqueued (some bt) ∧
      bt.length = cfgABC.BATCH_SIZE ∧
      (add_request cfgABC 0
          { pending := [mkBatchItem (reqOf "A") ["A"] 0], isShuttingDown := false }
          (reqOf "B")).2.pending = [] := by
  have h := C8_queue_never_reaches_batch_size cfgABC 0
    { pending := [mkBatchItem (reqOf "A") ["A"] 0], isShuttingDown := false }
    (reqOf "B") (by norm_num [cfgABC]) (by norm_num [cfgABC])
  exact ⟨h.1, h.2 ["B"] rfl rfl (by norm_num [cfgABC]) (by norm_num [cfgABC])⟩

/-- C6: a sweeper tick that finds a non-empty queue whose oldest entry
is at least `BATCH_TIMEOUT_MS` old extracts the entire queue — not just
`BATCH_SIZE` entries — as one batch and leaves the queue empty; the
`add_request` dispatch path, by contrast, can never hand over a batch
larger than `BATCH_SIZE`. -/
theorem C6_sweeper_extracts_entire_queue (cfg : Config) (now : ℚ) (st : ProcState)
    (hne : st.pending ≠ [])
    (hage : (now - st.pending.headI.timestamp) * 1000 ≥ (cfg.BATCH_TIMEOUT_MS : ℚ)) :
    timeout_tick cfg now st = (some st.pending, { st with pending := [] }) ∧
    (∀ (cfg' : Config) (now' : ℚ) (st' : ProcState) (req' : RawRequest)
        (bt : List BatchItem),
      (add_request cfg' now' st' req').1 = .enqueued (some bt) →
      bt.length ≤ cfg'.BATCH_SIZE) := by
  constructor
  · have hemp : st.pending.isEmpty = false := by
      simpa [List.isEmpty_iff] using hne
    simp [timeout_tick, hemp, hage]
  · intro cfg' now' st' req' bt h
    by_cases h1 : st'.isShuttingDown = true
    · simp [add_request, h1] at h
    · have h1' : st'.isShuttingDown = false := by simpa using h1
      cases hn : normalizeInput req'.input with
      | none => simp [add_request, h1', hn] at h
      | some inputs =>
          by_cases h2 : cfg'.MAX_QUEUE_SIZE ≤ st'.pending.length
          · simp [add_request, h1', hn, h2] at h
          · rw [add_request_accepted cfg' now' st' req' inputs h1' hn (by omega)] at h
            revert h
            split
            · intro h
              simp only [AddOutcome.enqueued.injEq, Option.some.injEq] at h
              rw [← h, List.length_take]
              exact min_le_left _ _
            · intro h
              simp at h

/-- Witness for C6: a single stale entry (timestamp 0, now 1 s, timeout
100 ms) is extracted whole by the sweeper and the queue is left
empty. -/
theorem C6_witness :
    timeout_tick cfgABC 1 { pending := [memberA, memberB], isShuttingDown := false } =
      (some [memberA, memberB], { pending := [], isShuttingDown := false }) := by
  have h := C6_sweeper_extracts_entire_queue cfgABC 1
    { pending := [memberA, memberB], isShuttingDown := false }
    (List.cons_ne_nil _ _) (by norm_num [memberA, cfgABC, List.headI])
  exact h.1

/-- C5: the per-member offset ranges recorded while concatenating a
batch's text lists exactly partition the combined list: the range at
position `i` runs from the total length of the first `i` members' texts
to that of the first `i + 1`; consecutive ranges abut, each range's
width is its member's own text count (so ranges are ordered and
non-overlapping), the first range starts at 0, and the last ends at the
length of the concatenated list. -/
theorem C5_boundaries_partition (batch : List BatchItem) :
    (requestBoundaries batch).length = batch.length ∧
    (∀ i, i < batch.length →
      (requestBoundaries batch)[i]? =
        some (((batch.map (fun it => it.request.input.length)).take i).sum,
          ((batch.map (fun it => it.request.input.length)).take (i + 1)).sum)) ∧
    (∀ i b1 b2, (requestBoundaries batch)[i]? = some b1 →
      (requestBoundaries batch)[i + 1]? = some b2 → b1.2 = b2.1) ∧
    (∀ i b1, (requestBoundaries batch)[i]? = some b1 →
      b1.2 = b1.1 + (batch.map (fun it => it.request.input.length)).getD i 0) ∧
    (batch ≠ [] → ∃ b0, (requestBoundaries batch)[0]? = some b0 ∧ b0.1 = 0) ∧
    (batch ≠ [] → ∃ bl, (requestBoundaries batch)[batch.length - 1]? = some bl ∧
      bl.2 = (allTexts batch).length) := by
  have hlenb : ∀ i (b1 : Nat × Nat), (requestBoundaries batch)[i]? = some b1 →
      i < batch.length := by
    intro i b1 h
    have := (List.getElem?_eq_some.mp h).1
    rwa [requestBoundaries_length] at this
  refine ⟨requestBoundaries_length batch, requestBoundaries_get? batch, ?_, ?_, ?_, ?_⟩
  · intro i b1 b2 h1 h2
    have hi1 : i + 1 < batch.length := hlenb _ _ h2
    have hi : i < batch.length := Nat.lt_of_succ_lt hi1
    rw [requestBoundaries_get? batch i hi] at h1
    rw [requestBoundaries_get? batch (i + 1) hi1] at h2
    simp only [Option.some.injEq] at h1 h2
    rw [← h1, ← h2]
  · intro i b1 h1
    have hi : i < batch.length := hlenb _ _ h1
    have hil : i < (batch.map (fun it => it.request.input.length)).length := by
      simpa using hi
    rw [requestBoundaries_get? batch i hi] at h1
    simp only [Option.some.injEq] at h1
    rw [← h1]
    simp only [List.take_succ, List.sum_append, List.getElem?_eq_getElem hil,
      Option.toList_some, List.sum_cons, List.sum_nil, Nat.add_zero,
      List.getD_eq_getElem _ _ hil]
  · intro hne
    have h0 : 0 < batch.length := List.length_pos.mpr hne
    exact ⟨_, requestBoundaries_get? batch 0 h0, by simp⟩
  · intro hne
    have h0 : 0 < batch.length := List.length_pos.mpr hne
    have hlast : batch.length - 1 < batch.length := by omega
    refine ⟨_, requestBoundaries_get? batch (batch.length - 1) hlast, ?_⟩
    have hsucc : batch.length - 1 + 1 = batch.length := by omega
    show ((batch.map (fun it => it.request.input.length)).take (batch.length - 1 + 1)).sum =
      (allTexts batch).length
    rw [hsucc, allTexts_length, List.take_of_length_le (by simp)]

/-- Witness for C5: on the concrete two-member batch the boundary list
has length two, and the second member's range is `(1, 2)`. -/
theorem C5_witness :
    (requestBoundaries [memberA, memberB]).length = 2 ∧
    (requestBoundaries [memberA, memberB])[1]? = some (1, 2) := by
  have h := C5_boundaries_partition [memberA, memberB]
  refine ⟨by simpa using h.1, ?_⟩
  have h2 := h.2.1 1 (by norm_num)
  simpa [memberA, memberB] using h2

/-- C2: failure fan-out of `_process_batch`.  If the shared encoder
call fails, every member's future is failed with that same error (so no
member of a failed batch resolves with success); if the shared call
succeeds, member `i`'s outcome is exactly its own per-member assembly
outcome, independent of its siblings — a slicing failure of one member
fails only that member, every sibling still resolves normally.  The
last conjunct instantiates the encoder-failure half on the concrete
pipeline `processBatchRun`. -/
theorem C2_encoder_failure_fanout_and_member_isolation {R : Type}
    (assemble : Nat → R → Except Err BGEEmbeddingResponse) (n i : Nat) (hi : i < n) :
    (∀ e : Err,
      (processBatchGeneric (R := R) (.error e) assemble n)[i]? = some (.error e)) ∧
    (∀ r : R,
      (processBatchGeneric (.ok r) assemble n)[i]? = some (assemble i r)) ∧
    (∀ (first : BatchItem) (rest : List BatchItem) (encoder : Option EncoderFn)
        (e : Err),
      process_bge_embeddings (combinedRequest first.request (allTexts (first :: rest)))
          encoder = .error e →
      processBatchRun (first :: rest) encoder =
        (first :: rest).map (fun _ => .error e)) := by
  refine ⟨?_, ?_, ?_⟩
  · intro e
    simp [processBatchGeneric, List.getElem?_replicate, hi]
  · intro r
    simp [processBatchGeneric, List.getElem?_range hi]
  · intro first rest encoder e h
    simp only [processBatchRun, h]

/-- Witness for C2: with a two-member batch whose member 0's assembly
raises while member 1's succeeds, member 1 still resolves with its own
result and member 0 alone fails; under a shared encoder error both
members receive that error. -/
theorem C2_witness :
    (processBatchGeneric (R := Unit) (.ok ()) asmStub 2)[0]? =
      some (.error (.valueError "slice failure")) ∧
    (processBatchGeneric (R := Unit) (.ok ()) asmStub 2)[1]? = some (.ok emptyResp) ∧
    (processBatchGeneric (R := Unit) (.error .noneEncoder) asmStub 2)[0]? =
      some (.error .noneEncoder) ∧
    (processBatchGeneric (R := Unit) (.error .noneEncoder) asmStub 2)[1]? =
      some (.error .noneEncoder) := by
  have h0 := C2_encoder_failure_fanout_and_member_isolation (R := Unit) asmStub 2 0
    (by norm_num)
  have h1 := C2_encoder_failure_fanout_and_member_isolation (R := Unit) asmStub 2 1
    (by norm_num)
  exact ⟨by simpa [asmStub] using h0.2.1 (), by simpa [asmStub] using h1.2.1 (),
    h0.1 .noneEncoder, h1.1 .noneEncoder⟩

/-- C1 (amended): when the shared encoder call of a batch succeeds,
member `i`'s future is resolved with its own slice of the combined
result, re-indexed to start at 0, with usage recomputed from that
member's own texts alone and with `embedding_types` listing exactly the
vector kinds that member itself requested.  The per-text embedding
*content* inside the slice, however, is whatever the combined call
(run under the first member's flags) computed — it is not re-filtered
per member. -/
theorem C1_member_resolution (first : BatchItem) (rest : List BatchItem)
    (encoder : Option EncoderFn) (br : BGEEmbeddingResponse)
    (hok : process_bge_embeddings
        (combinedRequest first.request (allTexts (first :: rest))) encoder = .ok br)
    (i : Nat) (hi : i < (first :: rest).length) :
    ∃ item bnds,
      (first :: rest)[i]? = some item ∧
      (requestBoundaries (first :: rest))[i]? = some bnds ∧
      (processBatchRun (first :: rest) encoder)[i]? =
        some (.ok (assembleMember item bnds br)) ∧
      (assembleMember item bnds br).data =
        reindexData ((br.data.drop bnds.1).take (bnds.2 - bnds.1)) ∧
      (assembleMember item bnds br).prompt_tokens = approxTokens item.request.input ∧
      (assembleMember item bnds br).total_tokens = approxTokens item.request.input ∧
      (assembleMember item bnds br).embedding_types =
        requestedTypes item.request.return_dense item.request.return_sparse
          item.request.return_colbert := by
  have hbl : i < (requestBoundaries (first :: rest)).length := by
    rw [requestBoundaries_length]
    exact hi
  refine ⟨(first :: rest)[i], (requestBoundaries (first :: rest))[i],
    List.getElem?_eq_getElem hi, List.getElem?_eq_getElem hbl, ?_, rfl, rfl, rfl, rfl⟩
  simp only [processBatchRun, hok]
  rw [List.getElem?_map]
  have hz : ((first :: rest).zip (requestBoundaries (first :: rest)))[i]? =
      some ((first :: rest)[i], (requestBoundaries (first :: rest))[i]) :=
    List.getElem?_zip_eq_some.mpr
      ⟨List.getElem?_eq_getElem hi, List.getElem?_eq_getElem hbl⟩
  rw [hz]
  rfl

/-- Counterexample to C1 as stated: in a batch whose first member
requested all vector kinds and whose second member requested only
sparse vectors, the second member's resolved response still carries the
dense and colbert content computed for the combined call — the content
is *not* filtered by that member's own flags; only the
`embedding_types` field reflects them. -/
theorem C1_claim_counterexample :
    memberB.request.return_dense = false ∧
    memberB.request.return_colbert = false ∧
    ∃ resp : BGEEmbeddingResponse,
      (processBatchRun [memberA, memberB] (some encStub))[1]? = some (.ok resp) ∧
      resp.embedding_types = ["sparse"] ∧
      resp.data.map (fun d => d.dense_embedding) = [some [(1 : ℚ)]] ∧
      resp.data.map (fun d => d.colbert_embedding) = [some [[(1 : ℚ)]]] :=
  ⟨rfl, rfl, _, rfl, rfl, rfl, rfl⟩

/-- Witness for the amended C1: the theorem applied to the concrete
two-member batch at member index 1. -/
theorem C1_witness :
    ∃ br, process_bge_embeddings
        (combinedRequest memberA.request (allTexts [memberA, memberB]))
        (some encStub) = .ok br ∧
      ∃ item bnds,
        ([memberA, memberB] : List BatchItem)[1]? = some item ∧
        (requestBoundaries [memberA, memberB])[1]? = some bnds ∧
        (processBatchRun [memberA, memberB] (some encStub))[1]? =
          some (.ok (assembleMember item bnds br)) ∧
        (assembleMember item bnds br).data =
          reindexData ((br.data.drop bnds.1).take (bnds.2 - bnds.1)) ∧
        (assembleMember item bnds br).prompt_tokens = approxTokens item.request.input ∧
        (assembleMember item bnds br).total_tokens = approxTokens item.request.input ∧
        (assembleMember item bnds br).embedding_types =
          requestedTypes item.request.return_dense item.request.return_sparse
            item.request.return_colbert :=
  ⟨_, rfl, C1_member_resolution memberA [memberB] (some encStub) _ rfl 1 (by norm_num)⟩

end EmbInfer
